import Mathlib

/-!
Verification development for a webpage-to-presentation pipeline
(`webpage_to_alai.py`).  The Python program is shallowly embedded:
each network response is an explicit parameter, the mutable
`AuthManager` object becomes an explicit record threaded through the
functions, and exceptions become `Except` values.
-/

set_option maxRecDepth 4096

/-- Python truthiness of an optional string: `None` and `""` are falsy. -/
def truthy : Option String → Bool
  | none => false
  | some s => s ≠ ""

/-- Response of one of the two Supabase auth endpoints, as consumed by the
code: HTTP status, and the `access_token`, `refresh_token`, `expires_in`
fields of the JSON body (each possibly absent). -/
structure AuthResponse where
  status : Nat
  access_token : Option String
  refresh_token : Option String
  expires_in : Option Nat
deriving Repr, DecidableEq

/-- The mutable fields of `AuthManager`: cached tokens, the recorded expiry
timestamp, and the credentials loaded from the environment
(`None` models an unset variable). `token_expiry` starts at `0`. -/
structure AuthState where
  access_token : Option String
  refresh_token : Option String
  token_expiry : Nat
  email : Option String
  password : Option String
deriving Repr, DecidableEq

/-- `AuthManager.refresh_access_token`, with `now = int(time.time())` and the
endpoint's response as parameters.  Returns the updated state together with
either the new `access_token` field or the raised exception's message.
On a non-200 response the refresh token is cleared before raising. -/
def refresh_access_token (st : AuthState) (now : Nat) (resp : AuthResponse) :
    AuthState × Except String (Option String) :=
  if truthy st.refresh_token = false then
    (st, Except.error "No refresh token available")
  else if resp.status ≠ 200 then
    ({ st with refresh_token := none }, Except.error "Refresh token error")
  else
    let st1 : AuthState :=
      { st with
        access_token := resp.access_token
        refresh_token := resp.refresh_token
        token_expiry := now + resp.expires_in.getD 3600 }
    (st1, Except.ok st1.access_token)

/-- The password-authentication tail of `AuthManager.get_valid_token`
(lines 115-138): missing email or password raises `ValueError`; a non-200
response raises; otherwise the three cached fields are set from the
response, with `expires_in` defaulting to 3600. -/
def full_password_auth (st : AuthState) (now : Nat) (resp : AuthResponse) :
    AuthState × Except String (Option String) :=
  if truthy st.email = false ∨ truthy st.password = false then
    (st, Except.error "Missing ALAI_EMAIL or ALAI_PASSWORD in environment variables")
  else if resp.status ≠ 200 then
    (st, Except.error "Authentication error")
  else
    let st1 : AuthState :=
      { st with
        access_token := resp.access_token
        refresh_token := resp.refresh_token
        token_expiry := now + resp.expires_in.getD 3600 }
    (st1, Except.ok st1.access_token)

/-- `AuthManager.get_valid_token`.  The cached token is returned when it is
truthy and `token_expiry > now + 300`; otherwise, when a refresh token is
held, a refresh is attempted and its success value returned, a refresh
failure being swallowed (with the state mutated by the failed refresh kept)
before falling back to full password authentication. -/
def get_valid_token (st : AuthState) (now : Nat)
    (refreshResp authResp : AuthResponse) :
    AuthState × Except String (Option String) :=
  if truthy st.access_token = true ∧ now + 300 < st.token_expiry then
    (st, Except.ok st.access_token)
  else if truthy st.refresh_token = true then
    match refresh_access_token st now refreshResp with
    | (st1, Except.ok tok) => (st1, Except.ok tok)
    | (st1, Except.error _) => full_password_auth st1 now authResp
  else
    full_password_auth st now authResp

/-- The `data` payload of one result of `app.extract` in
`extract_webpage_data`: each of `title`, `images`, `paragraphs` is `none`
when the corresponding top-level key is absent.  Dictionaries are
association lists in source-document order. -/
structure ExtractedData where
  title : Option String
  images : Option (List (String × List String))
  paragraphs : Option (List (String × String))
deriving Repr, DecidableEq

/-- The acceptance condition of the `while` loop of `extract_webpage_data`
(lines 33-40): all three top-level keys present, non-empty title, and more
than 2 paragraph entries. -/
def extractionAccepts (d : ExtractedData) : Bool :=
  d.title.isSome && d.images.isSome && d.paragraphs.isSome
    && (d.title.getD "") ≠ "" && (d.paragraphs.getD []).length > 2

/-- Keys of an optional association list (a dictionary's key list). -/
def dictKeys {α : Type} (o : Option (List (String × α))) : List String :=
  (o.getD []).map Prod.fst

/-- `extract_webpage_data`, abstracted over the sequence of `data` payloads
the extraction collaborator would return on successive attempts: the loop
retries until `extractionAccepts` holds and returns that result's data
(`none` models a run in which no listed attempt is ever accepted, i.e. the
loop is still running). -/
def extract_webpage_data : List ExtractedData → Option ExtractedData
  | [] => none
  | d :: rest => if extractionAccepts d then some d else extract_webpage_data rest

/-- The image-validation error text checked against the last received
websocket message (line 388). -/
def imageErrorSignature : String :=
  "Input should be \x27image/jpeg\x27, \x27image/png\x27, \x27image/gif\x27 or \x27image/webp\x27"

/-- Python `sig in msg`: substring containment, on character lists. -/
def containsSignature (msg : String) : Bool :=
  decide (imageErrorSignature.toList <:+: msg.toList)

/-- One inbound websocket message: its raw text (inspected for the
image-error signature) and the `id` field `json.loads(msg).get("id")`
would produce for it (`none` when absent). -/
structure WsMsg where
  text : String
  decodedId : Option String
deriving Repr, DecidableEq

/-- Return value of `handle_slide_websocket`: Python `False`, the
`"Image Error"` sentinel string, or `variant_info.get("id")`. -/
inductive WsOut where
  | failed
  | imageError
  | variantId (v : Option String)
deriving Repr, DecidableEq

/-- `handle_slide_websocket`, lines 385-394, as a function of the collected
inbound messages.  The `Bool` records whether `ws_app.close()` ran before
the function exited (it does on every path).  With zero messages the
indexing `received_msgs[-1]` raises `IndexError` — after the close — so the
result is an exception, not a return value. -/
def handle_slide_websocket : List WsMsg → Bool × Except String WsOut
  | [] => (true, Except.error "list index out of range")
  | [m] =>
      (true, Except.ok
        (if containsSignature m.text then WsOut.imageError else WsOut.failed))
  | _ :: m1 :: _ => (true, Except.ok (WsOut.variantId m1.decodedId))

/-- An HTTP response: status code and body text. -/
structure HttpResponse where
  status : Nat
  text : String
deriving Repr, DecidableEq

/-- Python `s.strip(c)`: remove every leading and trailing occurrence of
the character `c`. -/
def stripChar (c : Char) (s : String) : String :=
  String.mk (((s.toList.dropWhile (· == c)).reverse.dropWhile (· == c)).reverse)

/-- `PresentationClient.create_presentation`: raises on a non-200 response,
otherwise returns the response body (`response.json()`). -/
def create_presentation (resp : HttpResponse) : Except String String :=
  if resp.status ≠ 200 then Except.error "Error creating presentation"
  else Except.ok resp.text

/-- `PresentationClient.create_slide`: raises on a non-200 response,
otherwise returns the freshly generated slide uuid. -/
def create_slide (slide_uuid : String) (resp : HttpResponse) : Except String String :=
  if resp.status ≠ 200 then Except.error "Error creating slide"
  else Except.ok slide_uuid

/-- `PresentationClient.generate_share_link`, lines 261-273: the response
status is never inspected; the body is stripped of wrapping quote
characters and substituted into the share-URL template. -/
def generate_share_link (resp : HttpResponse) : String :=
  "https://app.getalai.com/view/" ++ stripChar (Char.ofNat 34) resp.text

/-- Python truthiness of `variant_id` combined with the
`variant_id != "Image Error"` guard on line 428: a variant commits only
when the websocket returned an `id` that is a non-empty string other than
`"Image Error"` (`None`, `False`, `""` are all falsy). -/
def isSuccess : WsOut → Bool
  | WsOut.failed => false
  | WsOut.imageError => false
  | WsOut.variantId none => false
  | WsOut.variantId (some s) => s ≠ "" && s ≠ "Image Error"

/-- The `variant_id == "Image Error"` comparison on line 432: true for the
sentinel return, and for an `id` field literally equal to the sentinel. -/
def isImgErr : WsOut → Bool
  | WsOut.imageError => true
  | WsOut.variantId (some s) => s == "Image Error"
  | _ => false

/-- The variant id handed to `pick_variant` on a successful outcome. -/
def successId : WsOut → String
  | WsOut.variantId (some s) => s
  | _ => ""

/-- Observable backend effects of `assemble_slides`, in program order:
slide creation (with the `slide_order` sent), a
`handle_slide_websocket` negotiation (with the section key, the attempt
index and the `slide_images` argument), a `pick_variant` commit, and a
`remove_slide` deletion. -/
inductive Ev where
  | created (sid : Nat) (order : Int)
  | negotiated (key : String) (sid : Nat) (attempt : Nat) (imgs : List String)
  | picked (sid : Nat) (vid : String)
  | removed (sid : Nat)
deriving Repr, DecidableEq

/-- The loop state of `assemble_slides`: `current_slide_id` (slide ids are
drawn from a counter standing in for `uuid.uuid4()`), `order_counter`
(an `Int`: removing the implicit first slide drives it to `-1`), the next
fresh slide id, and the trace of backend effects so far. -/
structure OrchState where
  currentSlide : Option Nat
  orderCounter : Int
  nextId : Nat
  events : List Ev
deriving Repr, DecidableEq

/-- Lines 421-423: `if not current_slide_id:` increment the order counter
and create a slide at that order.  Returns the slide id now held. -/
def ensureSlide (st : OrchState) : Nat × OrchState :=
  match st.currentSlide with
  | some sid => (sid, st)
  | none =>
      let ord : Int := st.orderCounter + 1
      (st.nextId,
        { currentSlide := some st.nextId
          orderCounter := ord
          nextId := st.nextId + 1
          events := st.events ++ [Ev.created st.nextId ord] })

/-- One iteration of the `while attempt < 4` body (lines 421-438) given the
negotiation outcome `v`.  Returns the state after the iteration and
`none` when the `break` on success was taken, or `some imgs2` — the
`slide_images` value for the next iteration — when the loop continues:
images are cleared exactly on an image error at attempt index 2, and on
every non-success outcome the slide is removed, the order counter
decremented and the held slide id cleared. -/
def attemptStep (key : String) (v : WsOut) (attempt : Nat)
    (imgs : List String) (st : OrchState) : OrchState × Option (List String) :=
  let p := ensureSlide st
  let sid := p.1
  let st1 := p.2
  let st2 : OrchState :=
    { st1 with events := st1.events ++ [Ev.negotiated key sid attempt imgs] }
  if isSuccess v then
    ({ st2 with
        currentSlide := none
        events := st2.events ++ [Ev.picked sid (successId v)] }, none)
  else
    let imgs2 := if isImgErr v && attempt == 2 then [] else imgs
    ({ st2 with
        currentSlide := none
        orderCounter := st2.orderCounter - 1
        events := st2.events ++ [Ev.removed sid] }, some imgs2)

/-- The `while attempt < 4` loop for one section, with `outcomes` giving
the negotiation result of each attempt index.  Called with `fuel = 4` and
`attempt = 0`; `fuel = 4 - attempt` throughout, so `fuel = 0` is the
loop condition `attempt < 4` failing. -/
def sectionGo (outcomes : Nat → WsOut) (key : String) :
    Nat → Nat → List String → OrchState → OrchState
  | 0, _, _, st => st
  | fuel + 1, attempt, imgs, st =>
      match attemptStep key (outcomes attempt) attempt imgs st with
      | (st1, none) => st1
      | (st1, some imgs2) => sectionGo outcomes key fuel (attempt + 1) imgs2 st1

/-- Line 411: the section key chosen for this pass — `"Introduction"`
while it remains, else the first remaining key. -/
def pickKey (keys : List String) : String :=
  if "Introduction" ∈ keys then "Introduction" else keys.headD ""

/-- The `for _ in range(len(section_keys))` loop of `assemble_slides`:
each pass picks a key, uploads that section's images (modelled by the
`images` map from key to the resulting handle list), runs the four-attempt
slide loop, and removes the key. -/
def assembleGo (images : String → List String) (outcomes : String → Nat → WsOut) :
    Nat → List String → OrchState → OrchState
  | 0, _, st => st
  | n + 1, keys, st =>
      let k := pickKey keys
      let st1 := sectionGo (outcomes k) k 4 0 (images k) st
      assembleGo images outcomes n (keys.erase k) st1

/-- `assemble_slides`: starts holding the presentation's implicit first
slide at order counter `0` and runs the section loop over all keys.
`outcomes k a` is what `handle_slide_websocket` returns for section `k`'s
attempt `a`; backend REST calls are taken to succeed. -/
def assemble_slides (keys : List String) (images : String → List String)
    (outcomes : String → Nat → WsOut) (firstSlide : Nat) : OrchState :=
  assembleGo images outcomes keys.length keys
    { currentSlide := some firstSlide
      orderCounter := 0
      nextId := firstSlide + 1
      events := [] }

/-- The sequence of section keys consumed by `assemble_slides`' outer
loop, in processing order (the key-selection logic of lines 409-417). -/
def processOrder : Nat → List String → List String
  | 0, _ => []
  | n + 1, keys =>
      let k := pickKey keys
      k :: processOrder n (keys.erase k)

/-- Processing order of a full section map with key list `keys`. -/
def sectionOrderOf (keys : List String) : List String :=
  processOrder keys.length keys

/-- Number of negotiation attempts recorded for section `key`. -/
def negCount (key : String) (evs : List Ev) : Nat :=
  (evs.filter fun e =>
    match e with
    | Ev.negotiated k _ _ _ => k == key
    | _ => false).length

/-- `build_presentation` / `main`: create the presentation (fatal on
non-200), assemble the slides, generate the share link (no status check);
the top-level `try/except` of `main` turns any raised exception into no
link at all. -/
def main_model (presResp : HttpResponse) (keys : List String)
    (images : String → List String) (outcomes : String → Nat → WsOut)
    (firstSlide : Nat) (shareResp : HttpResponse) : Option String :=
  match create_presentation presResp with
  | Except.error _ => none
  | Except.ok _ =>
      let _ := assemble_slides keys images outcomes firstSlide
      some (generate_share_link shareResp)

/-- C1: counterexample.  A full password authentication whose response
reports `expires_in = 100` returns that token, and the cached expiry is
`now + 100`, which does not exceed `now + 300`: the function can return a
token with only 100 seconds of remaining validity, contradicting the
claim that every returned token has more than 300 seconds remaining. -/
theorem C1_counterexample :
    get_valid_token ⟨none, none, 0, some "e", some "p"⟩ 1000
        ⟨200, none, none, none⟩ ⟨200, some "tok", none, some 100⟩ =
      (⟨some "tok", none, 1100, some "e", some "p"⟩, Except.ok (some "tok"))
    ∧ ¬ (1000 + 300 < (1100 : Nat)) :=
  ⟨rfl, by decide⟩

/-- C1: amended.  The cached access token is returned exactly when it is
present (non-empty) and its expiry exceeds `now + 300`; otherwise a
refresh is attempted when a refresh credential exists (its success value
returned, its failure falling back to password authentication), else full
password authentication runs; a successful full authentication caches
`expiry = now + expires_in` with `expires_in` defaulting to 3600 — so the
returned token has more than 300 seconds of remaining validity *provided*
the reported TTL exceeds 300 seconds (the code sets no floor on it). -/
theorem C1_token_lifecycle_amended :
    (∀ st now r a, truthy st.access_token = true → now + 300 < st.token_expiry →
        get_valid_token st now r a = (st, Except.ok st.access_token))
    ∧ (∀ st now r a,
        ¬ (truthy st.access_token = true ∧ now + 300 < st.token_expiry) →
        truthy st.refresh_token = false →
        get_valid_token st now r a = full_password_auth st now a)
    ∧ (∀ st now r a st1 tok,
        ¬ (truthy st.access_token = true ∧ now + 300 < st.token_expiry) →
        truthy st.refresh_token = true →
        refresh_access_token st now r = (st1, Except.ok tok) →
        get_valid_token st now r a = (st1, Except.ok tok))
    ∧ (∀ st now r a st1 e,
        ¬ (truthy st.access_token = true ∧ now + 300 < st.token_expiry) →
        truthy st.refresh_token = true →
        refresh_access_token st now r = (st1, Except.error e) →
        get_valid_token st now r a = full_password_auth st1 now a)
    ∧ (∀ st now a, truthy st.email = true → truthy st.password = true →
        a.status = 200 →
        full_password_auth st now a =
          ({ st with
              access_token := a.access_token
              refresh_token := a.refresh_token
              token_expiry := now + a.expires_in.getD 3600 },
            Except.ok a.access_token))
    ∧ (∀ st now a, truthy st.email = true → truthy st.password = true →
        a.status = 200 → 300 < a.expires_in.getD 3600 →
        now + 300 < (full_password_auth st now a).1.token_expiry) := by
  refine ⟨?_, ?_, ?_, ?_, ?_, ?_⟩
  · intro st now r a h1 h2
    simp [get_valid_token, h1, h2]
  · intro st now r a hneg hrt
    simp [get_valid_token, hneg, hrt]
  · intro st now r a st1 tok hneg hrt href
    simp [get_valid_token, hneg, hrt, href]
  · intro st now r a st1 e hneg hrt href
    simp [get_valid_token, hneg, hrt, href]
  · intro st now a he hp hs
    simp [full_password_auth, he, hp, hs]
  · intro st now a he hp hs httl
    simp [full_password_auth, he, hp, hs]
    omega

/-- C1: witness.  The amended theorem applied at concrete inputs: a cached
token expiring 700 seconds after `now` is returned unchanged, and a full
authentication reporting a 3600-second TTL leaves more than 300 seconds
of validity. -/
theorem C1_witness :
    get_valid_token ⟨some "tok", none, 1700, some "e", some "p"⟩ 1000
        ⟨200, none, none, none⟩ ⟨200, some "t2", none, none⟩ =
      (⟨some "tok", none, 1700, some "e", some "p"⟩, Except.ok (some "tok"))
    ∧ 1000 + 300 <
        (full_password_auth ⟨none, none, 0, some "e", some "p"⟩ 1000
          ⟨200, some "t2", none, none⟩).1.token_expiry :=
  ⟨C1_token_lifecycle_amended.1 ⟨some "tok", none, 1700, some "e", some "p"⟩ 1000
      ⟨200, none, none, none⟩ ⟨200, some "t2", none, none⟩ (by decide) (by decide),
    C1_token_lifecycle_amended.2.2.2.2.2 ⟨none, none, 0, some "e", some "p"⟩ 1000
      ⟨200, some "t2", none, none⟩ (by decide) (by decide) (by decide) (by decide)⟩

/-- C2: confirmed.  A raw extraction result is accepted iff its data has
the three top-level keys, a non-empty title and strictly more than 2
paragraph entries; every rejected result triggers an immediate further
attempt (the loop just moves to the next collaborator result, with no cap
on how many failures precede an acceptance), and the accepted result's
data payload is returned exactly. -/
theorem C2_extraction_acceptance :
    (∀ d, extractionAccepts d = true ↔
        (d.title.isSome = true ∧ d.images.isSome = true
          ∧ d.paragraphs.isSome = true ∧ d.title.getD "" ≠ ""
          ∧ 2 < (d.paragraphs.getD []).length))
    ∧ (∀ d rest, extractionAccepts d = false →
        extract_webpage_data (d :: rest) = extract_webpage_data rest)
    ∧ (∀ bads good, (∀ b ∈ bads, extractionAccepts b = false) →
        extractionAccepts good = true →
        extract_webpage_data (bads ++ [good]) = some good) := by
  refine ⟨?_, ?_, ?_⟩
  · intro d
    simp [extractionAccepts, and_assoc]
  · intro d rest h
    simp [extract_webpage_data, h]
  · intro bads good hb hg
    induction bads with
    | nil => simp [extract_webpage_data, hg]
    | cons b bs ih =>
        have h1 : extractionAccepts b = false := hb b (List.mem_cons_self b bs)
        simp only [List.cons_append, extract_webpage_data, h1, Bool.false_eq_true,
          if_false]
        exact ih fun x hx => hb x (List.mem_cons_of_mem b hx)

/-- C2: witness.  Two malformed results (missing keys, then an empty
title) are each rejected and retried, and the third result — title
present, three paragraph entries — is accepted and its data returned. -/
theorem C2_witness :
    extract_webpage_data
        ([⟨none, none, none⟩, ⟨some "", some [], some [("A", "a")]⟩] ++
          [⟨some "X", some [("A", ["u"])], some [("A", "a"), ("B", "b"), ("C", "c")]⟩]) =
      some ⟨some "X", some [("A", ["u"])], some [("A", "a"), ("B", "b"), ("C", "c")]⟩ :=
  C2_extraction_acceptance.2.2
    [⟨none, none, none⟩, ⟨some "", some [], some [("A", "a")]⟩]
    ⟨some "X", some [("A", ["u"])], some [("A", "a"), ("B", "b"), ("C", "c")]⟩
    (by decide) (by decide)

/-- C6: counterexample.  A result whose paragraphs dictionary has keys
`A, B, C` but whose images dictionary is empty passes the acceptance
check and is returned, yet its two key sets differ: the key-set equality
is not enforced before acceptance. -/
theorem C6_counterexample :
    extractionAccepts ⟨some "X", some [], some [("A", "a"), ("B", "b"), ("C", "c")]⟩ = true
    ∧ extract_webpage_data [⟨some "X", some [], some [("A", "a"), ("B", "b"), ("C", "c")]⟩] =
        some ⟨some "X", some [], some [("A", "a"), ("B", "b"), ("C", "c")]⟩
    ∧ dictKeys (⟨some "X", some [], some [("A", "a"), ("B", "b"), ("C", "c")]⟩ : ExtractedData).paragraphs ≠
        dictKeys (⟨some "X", some [], some [("A", "a"), ("B", "b"), ("C", "c")]⟩ : ExtractedData).images := by
  refine ⟨by decide, by decide, by decide⟩

/-- C6: amended.  The acceptance check enforces presence of the three
top-level keys, a non-empty title and more than 2 paragraph entries, but
it does not enforce equality of the paragraphs and images key sets — that
shape is only requested from the extraction collaborator in the prompt,
so accepted results need not satisfy it. -/
theorem C6_acceptance_invariant_amended :
    (∀ d, extractionAccepts d = true →
        (d.title.isSome = true ∧ d.images.isSome = true
          ∧ d.paragraphs.isSome = true ∧ d.title.getD "" ≠ ""
          ∧ 2 < (d.paragraphs.getD []).length))
    ∧ ¬ (∀ d, extractionAccepts d = true → dictKeys d.paragraphs = dictKeys d.images) := by
  constructor
  · intro d h
    revert h
    simp [extractionAccepts, and_assoc]
  · intro h
    exact absurd
      (h ⟨some "X", some [], some [("A", "a"), ("B", "b"), ("C", "c")]⟩ (by decide))
      (by decide)

/-- C6: witness.  The enforced part of the acceptance check, applied to a
concrete accepted result. -/
theorem C6_witness :
    (⟨some "X", some [("A", ["u"])], some [("A", "a"), ("B", "b"), ("C", "c")]⟩ :
        ExtractedData).title.isSome = true
    ∧ (⟨some "X", some [("A", ["u"])], some [("A", "a"), ("B", "b"), ("C", "c")]⟩ :
        ExtractedData).images.isSome = true
    ∧ (⟨some "X", some [("A", ["u"])], some [("A", "a"), ("B", "b"), ("C", "c")]⟩ :
        ExtractedData).paragraphs.isSome = true
    ∧ (⟨some "X", some [("A", ["u"])], some [("A", "a"), ("B", "b"), ("C", "c")]⟩ :
        ExtractedData).title.getD "" ≠ ""
    ∧ 2 < ((⟨some "X", some [("A", ["u"])], some [("A", "a"), ("B", "b"), ("C", "c")]⟩ :
        ExtractedData).paragraphs.getD []).length :=
  C6_acceptance_invariant_amended.1
    ⟨some "X", some [("A", ["u"])], some [("A", "a"), ("B", "b"), ("C", "c")]⟩
    (by decide)

/-- C3: counterexample.  On a run that collected zero inbound messages —
a run with "fewer than 2 messages" whose last message carries no
image-error signature — the function does not return `false`: indexing
the last element of the empty list raises, and the exception propagates. -/
theorem C3_counterexample :
    (handle_slide_websocket []).2 = Except.error "list index out of range"
    ∧ (handle_slide_websocket []).2 ≠ Except.ok WsOut.failed := by
  exact ⟨rfl, by simp [handle_slide_websocket]⟩

/-- C3: amended.  For a run that collected exactly one message, the
function returns the image-error sentinel when that message contains the
image-validation-error signature and `false` otherwise; for a run with at
least 2 messages it returns the `id` field decoded from the second
message; with zero messages it raises instead of returning.  The
connection is explicitly closed before every one of these exits. -/
theorem C3_negotiation_decision_amended :
    (∀ m, handle_slide_websocket [m] =
        (true, Except.ok
          (if containsSignature m.text then WsOut.imageError else WsOut.failed)))
    ∧ (∀ m0 m1 rest, handle_slide_websocket (m0 :: m1 :: rest) =
        (true, Except.ok (WsOut.variantId m1.decodedId)))
    ∧ handle_slide_websocket [] = (true, Except.error "list index out of range")
    ∧ (∀ msgs, (handle_slide_websocket msgs).1 = true) := by
  refine ⟨fun m => rfl, fun m0 m1 rest => rfl, rfl, ?_⟩
  intro msgs
  match msgs with
  | [] => rfl
  | [m] => rfl
  | _ :: _ :: _ => rfl

/-- C10: confirmed.  With zero collected messages the function yields none
of its contracted results: the `received_msgs[-1]` lookup raises an index
error (after the close), and that exception propagates to the caller. -/
theorem C10_zero_messages_raise :
    handle_slide_websocket [] = (true, Except.error "list index out of range")
    ∧ ∀ r : WsOut, (handle_slide_websocket []).2 ≠ Except.ok r := by
  exact ⟨rfl, fun r => by simp [handle_slide_websocket]⟩

/-- C9: counterexample.  Share-link generation performs no status check:
on a 500 response with body `Internal Server Error` the function still
returns a share URL built from that error body, so a backend error during
share-link generation is not fatal and a URL assembled from an error
response is returned. -/
theorem C9_counterexample :
    generate_share_link ⟨500, "Internal Server Error"⟩ =
      "https://app.getalai.com/view/Internal Server Error"
    ∧ (500 : Nat) ≠ 200 :=
  ⟨rfl, by decide⟩

/-- C9: amended.  Errors during presentation creation and slide creation
are fatal (they raise exactly on a non-200 response), and a top-level
failure is caught by `main`, which then produces no share link at all;
but share-link generation itself inspects no status: it always returns
the share-URL template filled with the quote-stripped response body,
whatever the status was. -/
theorem C9_error_propagation_amended :
    (∀ resp, create_presentation resp = Except.ok resp.text ↔ resp.status = 200)
    ∧ (∀ u resp, create_slide u resp = Except.ok u ↔ resp.status = 200)
    ∧ (∀ resp, generate_share_link resp =
        "https://app.getalai.com/view/" ++ stripChar (Char.ofNat 34) resp.text)
    ∧ (∀ presResp keys images outcomes fs shareResp,
        presResp.status ≠ 200 →
        main_model presResp keys images outcomes fs shareResp = none)
    ∧ (∀ presResp keys images outcomes fs shareResp,
        presResp.status = 200 →
        main_model presResp keys images outcomes fs shareResp =
          some (generate_share_link shareResp)) := by
  refine ⟨?_, ?_, fun resp => rfl, ?_, ?_⟩
  · intro resp
    by_cases h : resp.status = 200 <;> simp [create_presentation, h]
  · intro u resp
    by_cases h : resp.status = 200 <;> simp [create_slide, h]
  · intro presResp keys images outcomes fs shareResp h
    simp [main_model, create_presentation, h]
  · intro presResp keys images outcomes fs shareResp h
    simp [main_model, create_presentation, h]

/-- C9: witness.  A failed presentation creation (status 500) aborts the
run with no share link; a successful one (status 200) yields the link. -/
theorem C9_witness :
    main_model ⟨500, "err"⟩ ["A"] (fun _ => []) (fun _ _ => WsOut.failed) 0
        ⟨200, "tok"⟩ = none
    ∧ main_model ⟨200, "ok"⟩ ["A"] (fun _ => []) (fun _ _ => WsOut.failed) 0
        ⟨200, "tok"⟩ = some (generate_share_link ⟨200, "tok"⟩) :=
  ⟨C9_error_propagation_amended.2.2.2.1 ⟨500, "err"⟩ ["A"] (fun _ => [])
      (fun _ _ => WsOut.failed) 0 ⟨200, "tok"⟩ (by decide),
    C9_error_propagation_amended.2.2.2.2 ⟨200, "ok"⟩ ["A"] (fun _ => [])
      (fun _ _ => WsOut.failed) 0 ⟨200, "tok"⟩ (by decide)⟩

/-- Closed form of a failing attempt that starts with no held slide:
create at the next order index, negotiate, remove; the order counter ends
where it began. -/
theorem attemptStep_new_fail (key : String) (v : WsOut) (a : Nat)
    (imgs : List String) (st : OrchState)
    (hcs : st.currentSlide = none) (hv : isSuccess v = false) :
    attemptStep key v a imgs st =
      ({ currentSlide := none
         orderCounter := st.orderCounter
         nextId := st.nextId + 1
         events := st.events ++
           [Ev.created st.nextId (st.orderCounter + 1),
            Ev.negotiated key st.nextId a imgs,
            Ev.removed st.nextId] },
        some (if isImgErr v && a == 2 then [] else imgs)) := by
  simp [attemptStep, ensureSlide, hcs, hv]

/-- Closed form of a failing attempt on an already-held slide (such as the
implicit first slide): negotiate, remove, decrement the order counter. -/
theorem attemptStep_held_fail (key : String) (v : WsOut) (a : Nat)
    (imgs : List String) (st : OrchState) (sid : Nat)
    (hcs : st.currentSlide = some sid) (hv : isSuccess v = false) :
    attemptStep key v a imgs st =
      ({ currentSlide := none
         orderCounter := st.orderCounter - 1
         nextId := st.nextId
         events := st.events ++
           [Ev.negotiated key sid a imgs, Ev.removed sid] },
        some (if isImgErr v && a == 2 then [] else imgs)) := by
  simp [attemptStep, ensureSlide, hcs, hv]

/-- Closed form of a successful attempt on an already-held slide:
negotiate, commit; the order counter is untouched. -/
theorem attemptStep_held_success (key : String) (v : WsOut) (a : Nat)
    (imgs : List String) (st : OrchState) (sid : Nat)
    (hcs : st.currentSlide = some sid) (hv : isSuccess v = true) :
    attemptStep key v a imgs st =
      ({ currentSlide := none
         orderCounter := st.orderCounter
         nextId := st.nextId
         events := st.events ++
           [Ev.negotiated key sid a imgs, Ev.picked sid (successId v)] },
        none) := by
  simp [attemptStep, ensureSlide, hcs, hv]

/-- Closed form of a successful attempt that had to create its slide:
the order counter advances by one and stays there. -/
theorem attemptStep_new_success (key : String) (v : WsOut) (a : Nat)
    (imgs : List String) (st : OrchState)
    (hcs : st.currentSlide = none) (hv : isSuccess v = true) :
    attemptStep key v a imgs st =
      ({ currentSlide := none
         orderCounter := st.orderCounter + 1
         nextId := st.nextId + 1
         events := st.events ++
           [Ev.created st.nextId (st.orderCounter + 1),
            Ev.negotiated key st.nextId a imgs,
            Ev.picked st.nextId (successId v)] },
        none) := by
  simp [attemptStep, ensureSlide, hcs, hv]

/-- C5: confirmed.  The order counter advances only when a slide is
created and is decremented on every removal: a failing attempt that had
to create its slide restores the counter exactly (so the next creation
reuses the same order index, keeping indices dense), a failing attempt on
an already-held slide — the implicit first slide included — decrements
the counter, and on a held slide the counter moves only by the removal
decrement. -/
theorem C5_order_counter_density :
    (∀ key v a imgs st, isSuccess v = false → st.currentSlide = none →
        (attemptStep key v a imgs st).1.orderCounter = st.orderCounter
        ∧ (attemptStep key v a imgs st).1.currentSlide = none
        ∧ (attemptStep key v a imgs st).1.events =
            st.events ++
              [Ev.created st.nextId (st.orderCounter + 1),
               Ev.negotiated key st.nextId a imgs,
               Ev.removed st.nextId])
    ∧ (∀ key key2 v v2 a a2 imgs imgs2 st,
        isSuccess v = false → isSuccess v2 = false → st.currentSlide = none →
        (attemptStep key2 v2 a2 imgs2 (attemptStep key v a imgs st).1).1.events =
          (attemptStep key v a imgs st).1.events ++
            [Ev.created (st.nextId + 1) (st.orderCounter + 1),
             Ev.negotiated key2 (st.nextId + 1) a2 imgs2,
             Ev.removed (st.nextId + 1)])
    ∧ (∀ key v a imgs st sid, isSuccess v = false → st.currentSlide = some sid →
        (attemptStep key v a imgs st).1.orderCounter = st.orderCounter - 1
        ∧ (attemptStep key v a imgs st).1.events =
            st.events ++ [Ev.negotiated key sid a imgs, Ev.removed sid])
    ∧ (∀ key v a imgs st sid, st.currentSlide = some sid →
        (attemptStep key v a imgs st).1.orderCounter =
          (if isSuccess v then st.orderCounter else st.orderCounter - 1)) := by
  refine ⟨?_, ?_, ?_, ?_⟩
  · intro key v a imgs st hv hcs
    rw [attemptStep_new_fail key v a imgs st hcs hv]
    exact ⟨rfl, rfl, rfl⟩
  · intro key key2 v v2 a a2 imgs imgs2 st hv hv2 hcs
    rw [attemptStep_new_fail key v a imgs st hcs hv,
      attemptStep_new_fail key2 v2 a2 imgs2 _ rfl hv2]
  · intro key v a imgs st sid hv hcs
    rw [attemptStep_held_fail key v a imgs st sid hcs hv]
    exact ⟨rfl, rfl⟩
  · intro key v a imgs st sid hcs
    cases hs : isSuccess v with
    | true => rw [attemptStep_held_success key v a imgs st sid hcs hs]; simp
    | false => rw [attemptStep_held_fail key v a imgs st sid hcs hs]; simp

/-- C5: witness.  Two consecutive failing attempts from a state with no
held slide, order counter 5 and next fresh id 10: each creates at order
index 6, and after removing the implicit first slide (id 99, counter 0)
the counter is `-1`. -/
theorem C5_witness :
    (attemptStep "S" WsOut.failed 1 ["u"]
        ⟨none, 5, 10, []⟩).1.orderCounter = 5
    ∧ (attemptStep "S" WsOut.failed 1 ["u"] ⟨none, 5, 10, []⟩).1.currentSlide = none
    ∧ (attemptStep "S" WsOut.failed 1 ["u"] ⟨none, 5, 10, []⟩).1.events =
        [] ++ [Ev.created 10 6, Ev.negotiated "S" 10 1 ["u"], Ev.removed 10]
    ∧ (attemptStep "S" WsOut.failed 2 ["u"]
          (attemptStep "S" WsOut.failed 1 ["u"] ⟨none, 5, 10, []⟩).1).1.events =
        (attemptStep "S" WsOut.failed 1 ["u"] ⟨none, 5, 10, []⟩).1.events ++
          [Ev.created 11 6, Ev.negotiated "S" 11 2 ["u"], Ev.removed 11]
    ∧ (attemptStep "S" WsOut.failed 0 []
        ⟨some 99, 0, 100, []⟩).1.orderCounter = 0 - 1 :=
  ⟨(C5_order_counter_density.1 "S" WsOut.failed 1 ["u"] ⟨none, 5, 10, []⟩
      (by decide) rfl).1,
    (C5_order_counter_density.1 "S" WsOut.failed 1 ["u"] ⟨none, 5, 10, []⟩
      (by decide) rfl).2.1,
    (C5_order_counter_density.1 "S" WsOut.failed 1 ["u"] ⟨none, 5, 10, []⟩
      (by decide) rfl).2.2,
    C5_order_counter_density.2.1 "S" "S" WsOut.failed WsOut.failed 1 2 ["u"] ["u"]
      ⟨none, 5, 10, []⟩ (by decide) (by decide) rfl,
    (C5_order_counter_density.2.2.1 "S" WsOut.failed 0 [] ⟨some 99, 0, 100, []⟩ 99
      (by decide) rfl).1⟩

/-- C8: confirmed.  An image-error outcome mutates the orchestrator state
exactly like any other non-success outcome (slide removed, order counter
decremented, held id cleared) at every attempt index; the only
special-casing is in the images passed onward: at attempt index 2 the
continuation's image list is cleared, at any other index it is kept, and
the loop then proceeds to attempt index + 1 with that list. -/
theorem C8_image_error_attempt2 :
    (∀ key a imgs st,
        (attemptStep key WsOut.imageError a imgs st).1 =
          (attemptStep key WsOut.failed a imgs st).1)
    ∧ (∀ key imgs st, (attemptStep key WsOut.imageError 2 imgs st).2 = some [])
    ∧ (∀ key a imgs st, a ≠ 2 →
        (attemptStep key WsOut.imageError a imgs st).2 = some imgs)
    ∧ (∀ o key fuel a imgs st, o a = WsOut.imageError →
        sectionGo o key (fuel + 1) a imgs st =
          sectionGo o key fuel (a + 1) (if a == 2 then [] else imgs)
            ((attemptStep key WsOut.imageError a imgs st).1)) := by
  refine ⟨?_, ?_, ?_, ?_⟩
  · intro key a imgs st
    cases hcs : st.currentSlide with
    | none =>
        rw [attemptStep_new_fail key WsOut.imageError a imgs st hcs rfl,
          attemptStep_new_fail key WsOut.failed a imgs st hcs rfl]
    | some sid =>
        rw [attemptStep_held_fail key WsOut.imageError a imgs st sid hcs rfl,
          attemptStep_held_fail key WsOut.failed a imgs st sid hcs rfl]
  · intro key imgs st
    cases hcs : st.currentSlide with
    | none =>
        rw [attemptStep_new_fail key WsOut.imageError 2 imgs st hcs rfl]
        simp [isImgErr]
    | some sid =>
        rw [attemptStep_held_fail key WsOut.imageError 2 imgs st sid hcs rfl]
        simp [isImgErr]
  · intro key a imgs st ha
    cases hcs : st.currentSlide with
    | none =>
        rw [attemptStep_new_fail key WsOut.imageError a imgs st hcs rfl]
        simp [isImgErr, ha]
    | some sid =>
        rw [attemptStep_held_fail key WsOut.imageError a imgs st sid hcs rfl]
        simp [isImgErr, ha]
  · intro o key fuel a imgs st h
    cases hcs : st.currentSlide with
    | none =>
        rw [sectionGo, h, attemptStep_new_fail key WsOut.imageError a imgs st hcs rfl]
        simp [isImgErr]
    | some sid =>
        rw [sectionGo, h,
          attemptStep_held_fail key WsOut.imageError a imgs st sid hcs rfl]
        simp [isImgErr]

/-- C8: witness.  Image errors at attempt indices 2 and 0: at index 2 the
continuation's image list is cleared, at index 0 it is kept, and the loop
steps to attempt 3 with the cleared list. -/
theorem C8_witness :
    (attemptStep "S" WsOut.imageError 2 ["u"] ⟨none, 0, 1, []⟩).2 = some []
    ∧ (attemptStep "S" WsOut.imageError 0 ["u"] ⟨none, 0, 1, []⟩).2 = some ["u"]
    ∧ sectionGo (fun _ => WsOut.imageError) "S" 2 2 ["u"] ⟨none, 0, 1, []⟩ =
        sectionGo (fun _ => WsOut.imageError) "S" 1 3
          (if (2 : Nat) == 2 then [] else ["u"])
          ((attemptStep "S" WsOut.imageError 2 ["u"] ⟨none, 0, 1, []⟩).1) :=
  ⟨C8_image_error_attempt2.2.1 "S" ["u"] ⟨none, 0, 1, []⟩,
    C8_image_error_attempt2.2.2.1 "S" 0 ["u"] ⟨none, 0, 1, []⟩ (by decide),
    C8_image_error_attempt2.2.2.2 (fun _ => WsOut.imageError) "S" 1 2 ["u"]
      ⟨none, 0, 1, []⟩ rfl⟩

/-- Keys of the attempt-0 negotiation events, in trace order: one per
section, in the order sections were processed. -/
def negZeroKeys (evs : List Ev) : List String :=
  evs.filterMap fun e =>
    match e with
    | Ev.negotiated k _ a _ => if a == 0 then some k else none
    | _ => none

theorem negZeroKeys_append (l1 l2 : List Ev) :
    negZeroKeys (l1 ++ l2) = negZeroKeys l1 ++ negZeroKeys l2 := by
  simp [negZeroKeys, List.filterMap_append]

theorem negZeroKeys_attemptStep (key : String) (v : WsOut) (a : Nat)
    (imgs : List String) (st : OrchState) :
    negZeroKeys ((attemptStep key v a imgs st).1.events) =
      negZeroKeys st.events ++ (if a == 0 then [key] else []) := by
  cases hcs : st.currentSlide with
  | none =>
      cases hv : isSuccess v with
      | false =>
          rw [attemptStep_new_fail key v a imgs st hcs hv]
          simp only [negZeroKeys_append]
          simp [negZeroKeys, List.filterMap]
          by_cases h0 : a = 0 <;> simp [h0]
      | true =>
          rw [attemptStep_new_success key v a imgs st hcs hv]
          simp only [negZeroKeys_append]
          simp [negZeroKeys, List.filterMap]
          by_cases h0 : a = 0 <;> simp [h0]
  | some sid =>
      cases hv : isSuccess v with
      | false =>
          rw [attemptStep_held_fail key v a imgs st sid hcs hv]
          simp only [negZeroKeys_append]
          simp [negZeroKeys, List.filterMap]
          by_cases h0 : a = 0 <;> simp [h0]
      | true =>
          rw [attemptStep_held_success key v a imgs st sid hcs hv]
          simp only [negZeroKeys_append]
          simp [negZeroKeys, List.filterMap]
          by_cases h0 : a = 0 <;> simp [h0]

theorem negZeroKeys_sectionGo_pos (o : Nat → WsOut) (key : String) :
    ∀ fuel a imgs st, 1 ≤ a →
      negZeroKeys ((sectionGo o key fuel a imgs st).events) =
        negZeroKeys st.events := by
  intro fuel
  induction fuel with
  | zero => intro a imgs st _; rfl
  | succ f ih =>
      intro a imgs st ha
      rw [sectionGo]
      rcases h : attemptStep key (o a) a imgs st with ⟨st1, opt⟩
      have hev : negZeroKeys st1.events = negZeroKeys st.events := by
        have := negZeroKeys_attemptStep key (o a) a imgs st
        rw [h] at this
        have ha0 : (a == 0) = false := by
          simp only [beq_eq_false_iff_ne, ne_eq]
          omega
        simpa [ha0] using this
      cases opt with
      | none => exact hev
      | some imgs2 =>
          rw [ih (a + 1) imgs2 st1 (by omega)]
          exact hev

theorem negZeroKeys_sectionGo_zero (o : Nat → WsOut) (key : String)
    (fuel : Nat) (imgs : List String) (st : OrchState) :
    negZeroKeys ((sectionGo o key (fuel + 1) 0 imgs st).events) =
      negZeroKeys st.events ++ [key] := by
  rw [sectionGo]
  rcases h : attemptStep key (o 0) 0 imgs st with ⟨st1, opt⟩
  have hev : negZeroKeys st1.events = negZeroKeys st.events ++ [key] := by
    have := negZeroKeys_attemptStep key (o 0) 0 imgs st
    rw [h] at this
    simpa using this
  cases opt with
  | none => exact hev
  | some imgs2 =>
      rw [negZeroKeys_sectionGo_pos o key fuel 1 imgs2 st1 (by omega)]
      exact hev

theorem negZeroKeys_assembleGo (images : String → List String)
    (outcomes : String → Nat → WsOut) :
    ∀ n keys st,
      negZeroKeys ((assembleGo images outcomes n keys st).events) =
        negZeroKeys st.events ++ processOrder n keys := by
  intro n
  induction n with
  | zero => intro keys st; simp [assembleGo, processOrder]
  | succ m ih =>
      intro keys st
      rw [assembleGo, processOrder, ih,
        negZeroKeys_sectionGo_zero (outcomes (pickKey keys)) (pickKey keys) 3
          (images (pickKey keys)) st]
      simp

theorem processOrder_of_not_mem :
    ∀ l : List String, "Introduction" ∉ l → processOrder l.length l = l := by
  intro l
  induction l with
  | nil => intro _; rfl
  | cons h t ih =>
      intro hm
      have hp : pickKey (h :: t) = h := by
        unfold pickKey
        rw [if_neg hm]
        rfl
      rw [List.length_cons, processOrder, hp, List.erase_cons_head,
        ih fun hx => hm (List.mem_cons_of_mem h hx)]

/-- C7: confirmed.  The keys of the attempt-0 negotiation events of
`assemble_slides` are exactly the section processing order, and for every
key list containing `"Introduction"` that order is `"Introduction"`
first — wherever it sat in the map — followed by the remaining keys in
map iteration order. -/
theorem C7_introduction_first :
    (∀ keys images outcomes firstSlide,
        negZeroKeys ((assemble_slides keys images outcomes firstSlide).events) =
          sectionOrderOf keys)
    ∧ (∀ keys : List String, keys.Nodup → "Introduction" ∈ keys →
        sectionOrderOf keys = "Introduction" :: keys.erase "Introduction") := by
  constructor
  · intro keys images outcomes firstSlide
    rw [assemble_slides, negZeroKeys_assembleGo, sectionOrderOf]
    rfl
  · intro keys hnd hm
    obtain ⟨m, hlen⟩ : ∃ m, keys.length = m + 1 := by
      cases keys with
      | nil => simp at hm
      | cons h t => exact ⟨t.length, rfl⟩
    have hp : pickKey keys = "Introduction" := by
      unfold pickKey
      rw [if_pos hm]
    have herase : (keys.erase "Introduction").length = m := by
      rw [List.length_erase_of_mem hm, hlen]
      rfl
    have hnotmem : "Introduction" ∉ keys.erase "Introduction" := by
      intro hx
      exact absurd (hnd.mem_erase_iff.mp hx).1 (by simp)
    rw [sectionOrderOf, hlen, processOrder, hp, ← herase,
      processOrder_of_not_mem _ hnotmem]

/-- C7: witness.  `"Introduction"` sits in the middle of the input map,
yet is processed first, with the remaining keys in map order. -/
theorem C7_witness :
    sectionOrderOf ["A", "Introduction", "B"] =
      "Introduction" :: (["A", "Introduction", "B"].erase "Introduction") :=
  C7_introduction_first.2 ["A", "Introduction", "B"] (by decide) (by decide)

theorem negCount_attemptStep (key : String) (v : WsOut) (a : Nat)
    (imgs : List String) (st : OrchState) (k : String) :
    negCount k ((attemptStep key v a imgs st).1.events) =
      negCount k st.events + (if key == k then 1 else 0) := by
  cases hcs : st.currentSlide with
  | none =>
      cases hv : isSuccess v with
      | false =>
          rw [attemptStep_new_fail key v a imgs st hcs hv]
          by_cases hk : (key == k) = true <;>
            simp [negCount, List.filter_append, hk]
      | true =>
          rw [attemptStep_new_success key v a imgs st hcs hv]
          by_cases hk : (key == k) = true <;>
            simp [negCount, List.filter_append, hk]
  | some sid =>
      cases hv : isSuccess v with
      | false =>
          rw [attemptStep_held_fail key v a imgs st sid hcs hv]
          by_cases hk : (key == k) = true <;>
            simp [negCount, List.filter_append, hk]
      | true =>
          rw [attemptStep_held_success key v a imgs st sid hcs hv]
          by_cases hk : (key == k) = true <;>
            simp [negCount, List.filter_append, hk]

theorem negCount_sectionGo_other (o : Nat → WsOut) (key k : String)
    (hne : (key == k) = false) :
    ∀ fuel a imgs st,
      negCount k ((sectionGo o key fuel a imgs st).events) =
        negCount k st.events := by
  intro fuel
  induction fuel with
  | zero => intro a imgs st; rfl
  | succ f ih =>
      intro a imgs st
      rw [sectionGo]
      rcases h : attemptStep key (o a) a imgs st with ⟨st1, opt⟩
      have hev : negCount k st1.events = negCount k st.events := by
        have hh := negCount_attemptStep key (o a) a imgs st k
        rw [h] at hh
        simpa [hne] using hh
      cases opt with
      | none => exact hev
      | some imgs2 => rw [ih (a + 1) imgs2 st1]; exact hev

theorem negCount_sectionGo_le (o : Nat → WsOut) (k : String) :
    ∀ fuel a imgs st,
      negCount k ((sectionGo o k fuel a imgs st).events) ≤
        negCount k st.events + fuel := by
  intro fuel
  induction fuel with
  | zero => intro a imgs st; simp [sectionGo]
  | succ f ih =>
      intro a imgs st
      rw [sectionGo]
      rcases h : attemptStep k (o a) a imgs st with ⟨st1, opt⟩
      have hev : negCount k st1.events = negCount k st.events + 1 := by
        have hh := negCount_attemptStep k (o a) a imgs st k
        rw [h] at hh
        simpa using hh
      cases opt with
      | none =>
          show negCount k st1.events ≤ negCount k st.events + (f + 1)
          omega
      | some imgs2 =>
          show negCount k ((sectionGo o k f (a + 1) imgs2 st1).events) ≤
            negCount k st.events + (f + 1)
          have := ih (a + 1) imgs2 st1
          omega

theorem negCount_sectionGo_mono (o : Nat → WsOut) (key k : String) :
    ∀ fuel a imgs st,
      negCount k st.events ≤
        negCount k ((sectionGo o key fuel a imgs st).events) := by
  intro fuel
  induction fuel with
  | zero => intro a imgs st; simp [sectionGo]
  | succ f ih =>
      intro a imgs st
      rw [sectionGo]
      rcases h : attemptStep key (o a) a imgs st with ⟨st1, opt⟩
      have hev : negCount k st.events ≤ negCount k st1.events := by
        have hh := negCount_attemptStep key (o a) a imgs st k
        rw [h] at hh
        by_cases hk : (key == k) = true <;> simp [hk] at hh <;> omega
      cases opt with
      | none => exact hev
      | some imgs2 =>
          show negCount k st.events ≤
            negCount k ((sectionGo o key f (a + 1) imgs2 st1).events)
          exact le_trans hev (ih (a + 1) imgs2 st1)

theorem negCount_sectionGo_ge (o : Nat → WsOut) (k : String) (fuel : Nat) :
    ∀ a imgs st,
      negCount k st.events + 1 ≤
        negCount k ((sectionGo o k (fuel + 1) a imgs st).events) := by
  intro a imgs st
  rw [sectionGo]
  rcases h : attemptStep k (o a) a imgs st with ⟨st1, opt⟩
  have hev : negCount k st1.events = negCount k st.events + 1 := by
    have hh := negCount_attemptStep k (o a) a imgs st k
    rw [h] at hh
    simpa using hh
  cases opt with
  | none =>
      show negCount k st.events + 1 ≤ negCount k st1.events
      omega
  | some imgs2 =>
      show negCount k st.events + 1 ≤
        negCount k ((sectionGo o k fuel (a + 1) imgs2 st1).events)
      have := negCount_sectionGo_mono o k k fuel (a + 1) imgs2 st1
      omega

theorem pickKey_mem (keys : List String) (h : keys ≠ []) :
    pickKey keys ∈ keys := by
  unfold pickKey
  split
  · assumption
  · cases keys with
    | nil => exact absurd rfl h
    | cons a t => simp

theorem negCount_assembleGo_not_mem (images : String → List String)
    (outcomes : String → Nat → WsOut) (k : String) :
    ∀ n keys st, k ∉ keys → n ≤ keys.length →
      negCount k ((assembleGo images outcomes n keys st).events) =
        negCount k st.events := by
  intro n
  induction n with
  | zero => intro keys st _ _; rfl
  | succ m ih =>
      intro keys st hk hlen
      rw [assembleGo]
      have hnil : keys ≠ [] := by
        intro h
        subst h
        simp at hlen
      have hpm : pickKey keys ∈ keys := pickKey_mem keys hnil
      have hne : (pickKey keys == k) = false := by
        simp only [beq_eq_false_iff_ne, ne_eq]
        intro h
        exact hk (h ▸ hpm)
      have herase : m ≤ (keys.erase (pickKey keys)).length := by
        rw [List.length_erase_of_mem hpm]
        omega
      rw [ih (keys.erase (pickKey keys)) _
            (fun hx => hk (List.mem_of_mem_erase hx)) herase,
        negCount_sectionGo_other (outcomes (pickKey keys)) (pickKey keys) k hne]

theorem negCount_assembleGo_mem (images : String → List String)
    (outcomes : String → Nat → WsOut) (k : String) :
    ∀ n keys st, keys.Nodup → k ∈ keys → n = keys.length →
      negCount k st.events + 1 ≤
          negCount k ((assembleGo images outcomes n keys st).events)
        ∧ negCount k ((assembleGo images outcomes n keys st).events) ≤
            negCount k st.events + 4 := by
  intro n
  induction n with
  | zero =>
      intro keys st hnd hk hlen
      have : keys = [] := List.length_eq_zero.mp hlen.symm
      subst this
      simp at hk
  | succ m ih =>
      intro keys st hnd hk hlen
      rw [assembleGo]
      have hnil : keys ≠ [] := by
        intro h
        subst h
        simp at hlen
      have hpm : pickKey keys ∈ keys := pickKey_mem keys hnil
      have herase : (keys.erase (pickKey keys)).length = m := by
        rw [List.length_erase_of_mem hpm]
        omega
      by_cases hpk : pickKey keys = k
      · have hknot : k ∉ keys.erase (pickKey keys) := by
          intro hx
          rw [hpk] at hx
          exact absurd (hnd.mem_erase_iff.mp hx).1 (by simp)
        rw [negCount_assembleGo_not_mem images outcomes k m
            (keys.erase (pickKey keys)) _ hknot (by omega)]
        constructor
        · have h1 := negCount_sectionGo_ge (outcomes (pickKey keys)) k 3 0
            (images (pickKey keys)) st
          rw [hpk]
          rw [hpk] at h1
          exact h1
        · have h2 := negCount_sectionGo_le (outcomes (pickKey keys)) k 4 0
            (images (pickKey keys)) st
          rw [hpk]
          rw [hpk] at h2
          exact h2
      · have hne : (pickKey keys == k) = false := beq_eq_false_iff_ne.mpr hpk
        have hmem : k ∈ keys.erase (pickKey keys) :=
          List.mem_erase_of_ne (fun h => hpk h.symm) |>.mpr hk
        have hih := ih (keys.erase (pickKey keys))
          (sectionGo (outcomes (pickKey keys)) (pickKey keys) 4 0
            (images (pickKey keys)) st)
          (hnd.erase (pickKey keys)) hmem herase.symm
        rw [negCount_sectionGo_other (outcomes (pickKey keys)) (pickKey keys) k
            hne 4 0 (images (pickKey keys)) st] at hih
        exact hih

/-- C4: confirmed.  For every section of a run of `assemble_slides`, at
least 1 and at most 4 negotiation attempts are recorded — whatever the
outcomes, including a section whose 4 attempts all fail: the orchestrator
raises nothing, moves on, and still reaches every remaining section. -/
theorem C4_attempt_cap :
    ∀ (keys : List String) images outcomes firstSlide k,
      keys.Nodup → k ∈ keys →
      1 ≤ negCount k ((assemble_slides keys images outcomes firstSlide).events)
      ∧ negCount k ((assemble_slides keys images outcomes firstSlide).events) ≤ 4 := by
  intro keys images outcomes firstSlide k hnd hk
  have h := negCount_assembleGo_mem images outcomes k keys.length keys
    ⟨some firstSlide, 0, firstSlide + 1, []⟩ hnd hk rfl
  simpa [assemble_slides, negCount] using h

/-- C4: witness.  With every negotiation failing for section `"A"` and
succeeding at once for section `"B"`, section `"B"` is still processed
(at least one attempt) and section `"A"` gets at most 4 attempts. -/
theorem C4_witness :
    (1 ≤ negCount "B" ((assemble_slides ["A", "B"] (fun _ => [])
          (fun k _ => if k == "A" then WsOut.failed else WsOut.variantId (some "v"))
          7).events)
      ∧ negCount "B" ((assemble_slides ["A", "B"] (fun _ => [])
          (fun k _ => if k == "A" then WsOut.failed else WsOut.variantId (some "v"))
          7).events) ≤ 4)
    ∧ (1 ≤ negCount "A" ((assemble_slides ["A", "B"] (fun _ => [])
          (fun k _ => if k == "A" then WsOut.failed else WsOut.variantId (some "v"))
          7).events)
      ∧ negCount "A" ((assemble_slides ["A", "B"] (fun _ => [])
          (fun k _ => if k == "A" then WsOut.failed else WsOut.variantId (some "v"))
          7).events) ≤ 4) :=
  ⟨C4_attempt_cap ["A", "B"] (fun _ => [])
      (fun k _ => if k == "A" then WsOut.failed else WsOut.variantId (some "v"))
      7 "B" (by decide) (by decide),
    C4_attempt_cap ["A", "B"] (fun _ => [])
      (fun k _ => if k == "A" then WsOut.failed else WsOut.variantId (some "v"))
      7 "A" (by decide) (by decide)⟩
